import Mathlib

/-!
Shallow embedding of the `noreplay` repository (Rust): a no-wrap replay
detector over a bit-addressable sliding window ("Mask") with two backends,
a packed-word big integer (`src/bigint.rs`) and a cell sequence over a
`VecDeque` (`src/dequeue.rs`), plus the window-management algorithm
(`src/lib.rs`) and the error taxonomy (`src/errors.rs`).

Modelling conventions:
- `usize` is modelled as `Nat`; `usize` is 64 bits wide on the reference
  target, so word-level wrapping in the big-integer shift is `% 2 ^ 64`.
- Operations that can panic in Rust return `Option`; `none` models a panic
  (unsigned-integer underflow, out-of-bounds indexing, shift-amount
  overflow — each `none` branch is annotated with the panic it mirrors).
  Rust checks integer underflow and shift-amount overflow under the
  default (debug) profile, which is the semantics embedded here.
- The `println!` in `Dequeue::set_bit` is output only and carries no state,
  so it is not modelled.
-/

deriving instance DecidableEq for Except

/-- `ReplayError` from `src/errors.rs`. -/
inductive ReplayError where
  | Duplicated (seq : Nat)
  | OutsideWindow (seq : Nat)
deriving DecidableEq, Repr

/-- `Bigint` from `src/bigint.rs`: a fixed-size big integer stored as 64-bit
words, most significant word first. -/
structure Bigint where
  sz : Nat
  segments : List Nat
  msb_mask : Nat
deriving DecidableEq, Repr

/-- `Bigint::new` from `src/bigint.rs`. Panics (`none`) when `sz == 0`.
`msb_mask` is `1usize.checked_shl((64 - sz % 64) as u32).unwrap_or(0).wrapping_sub(1)`:
when `sz % 64 == 0` the shift amount is 64, `checked_shl` yields `None`,
`unwrap_or(0)` gives 0 and `0usize.wrapping_sub(1)` is `2 ^ 64 - 1`;
otherwise it is `2 ^ (64 - sz % 64) - 1`. -/
def Bigint.new (sz : Nat) : Option Bigint :=
  if sz = 0 then none
  else some
    { sz := sz
      segments := List.replicate ((sz + 63) / 64) 0
      msb_mask := if sz % 64 = 0 then 2 ^ 64 - 1 else (1 <<< (64 - sz % 64)) - 1 }

/-- `Bigint::bit` from `src/bigint.rs`:
`if n > sz { false } else { segments[len - n/64 - 1] & (1 << n%64) != 0 }`.
The index expression `len - (n / 64) - 1` is `usize` arithmetic: when
`len ≤ n / 64` it underflows, a panic (`none`). -/
def Bigint.bit (b : Bigint) (n : Nat) : Option Bool :=
  if b.sz < n then some false
  else if b.segments.length ≤ n / 64 then none
  else some (((b.segments.getD (b.segments.length - n / 64 - 1) 0) &&& (1 <<< (n % 64))) != 0)

/-- `Bigint::set_bit` from `src/bigint.rs`: same addressing as `bit`, ORs in
`1 << n%64`; no-op when `n > sz`; underflow of `len - n/64 - 1` panics. -/
def Bigint.set_bit (b : Bigint) (n : Nat) : Option Bigint :=
  if b.sz < n then some b
  else if b.segments.length ≤ n / 64 then none
  else
    let i := b.segments.length - n / 64 - 1
    some { b with segments := b.segments.set i ((b.segments.getD i 0) ||| (1 <<< (n % 64))) }

/-- `Bigint::shl` from `src/bigint.rs`: multi-word left shift. For each word
`i`, the carry collects `segments[i+seg] << pos` and
`segments[i+seg+1] >> (64 - pos)` (indices past the end contribute nothing),
and the word becomes `segments[i] << pos | carry`; afterwards the most
significant word is masked with `msb_mask`. All reads in the Rust loop see
pre-loop values because iteration `i` only reads indices `≥ i`, each before
it is written, so a map over the old array is faithful.
Panics modelled: when `pos = 0` and some iteration evaluates
`segments[i+seg+1] >> (64 - pos)`, the shift amount is 64 = the word width,
a shift-overflow panic (first hit at `i = 0`, i.e. when `seg + 1 < len`);
when the segment array is empty, `segments[0] &= msb_mask` is out of
bounds. -/
def Bigint.shl (b : Bigint) (n : Nat) : Option Bigint :=
  if n = 0 then some b
  else
    let len := b.segments.length
    let pos := n % 64
    let seg := n / 64
    if pos = 0 ∧ seg + 1 < len then none
    else
      let segs := (List.range len).map fun i =>
        let c₁ := if i + seg < len then ((b.segments.getD (i + seg) 0) <<< pos) % 2 ^ 64 else 0
        let c₂ := if i + seg + 1 < len then (b.segments.getD (i + seg + 1) 0) >>> (64 - pos) else 0
        (((b.segments.getD i 0) <<< pos) % 2 ^ 64) ||| (c₁ ||| c₂)
      match segs with
      | [] => none
      | s :: rest => some { b with segments := (s &&& b.msb_mask) :: rest }

/-- `Dequeue` from `src/dequeue.rs`: a `VecDeque<usize>` of single-bit cells
plus the declared `size`. -/
structure Dequeue where
  vec : List Nat
  size : Nat
deriving DecidableEq, Repr

/-- `Dequeue::new` from `src/dequeue.rs`: `size` zero cells. Note there is no
width check — unlike `Bigint::new`, `size == 0` does not panic. -/
def Dequeue.new (size : Nat) : Dequeue :=
  { vec := List.replicate size 0, size := size }

/-- `Dequeue::bit` from `src/dequeue.rs`:
`if n > size { false } else { vec[size - n - 1] == 1 }`.
When `n = size` the `usize` expression `size - n - 1` underflows, a panic
(`none`); when the index is not below `vec.len()` the indexing panics. -/
def Dequeue.bit (q : Dequeue) (n : Nat) : Option Bool :=
  if q.size < n then some false
  else if n = q.size then none
  else if q.size - n - 1 < q.vec.length then some (q.vec.getD (q.size - n - 1) 0 == 1)
  else none

/-- `Dequeue::set_bit` from `src/dequeue.rs`: writes `1` at `vec[size - n - 1]`;
same underflow / out-of-bounds panics as `bit`; no-op when `n > size`. -/
def Dequeue.set_bit (q : Dequeue) (n : Nat) : Option Dequeue :=
  if q.size < n then some q
  else if n = q.size then none
  else if q.size - n - 1 < q.vec.length then
    some { q with vec := q.vec.set (q.size - n - 1) 1 }
  else none

/-- `Dequeue::shl` from `src/dequeue.rs`: if `n > size` the whole vector is
cleared, otherwise `n` zero cells are pushed at the back. Never panics. -/
def Dequeue.shl (q : Dequeue) (n : Nat) : Option Dequeue :=
  if q.size < n then some { q with vec := [] }
  else some { q with vec := q.vec ++ List.replicate n 0 }

/-- The closed set of `Mask` implementations shipped by the repository
(`Box<dyn Mask>` holding either a `Bigint` or a `Dequeue`). -/
inductive MaskImpl where
  | bigintMask (b : Bigint)
  | dequeueMask (q : Dequeue)
deriving DecidableEq, Repr

def MaskImpl.bit : MaskImpl → Nat → Option Bool
  | .bigintMask b, n => Bigint.bit b n
  | .dequeueMask q, n => Dequeue.bit q n

def MaskImpl.set_bit : MaskImpl → Nat → Option MaskImpl
  | .bigintMask b, n => (Bigint.set_bit b n).map .bigintMask
  | .dequeueMask q, n => (Dequeue.set_bit q n).map .dequeueMask

def MaskImpl.shl : MaskImpl → Nat → Option MaskImpl
  | .bigintMask b, n => (Bigint.shl b n).map .bigintMask
  | .dequeueMask q, n => (Dequeue.shl q n).map .dequeueMask

/-- The `Mask` trait from `src/lib.rs`, as a record of operations over a
backend state type `σ`. -/
structure Mask (σ : Type) where
  bit : σ → Nat → Option Bool
  set_bit : σ → Nat → Option σ
  shl : σ → Nat → Option σ

/-- The trait table for the repository's own backends. -/
def maskOps : Mask MaskImpl :=
  { bit := MaskImpl.bit, set_bit := MaskImpl.set_bit, shl := MaskImpl.shl }

/-- `NoWrapReplayDetector` from `src/lib.rs`, generic over the backend state
(the Rust struct stores `Box<dyn Mask>`). -/
structure Detector (σ : Type) where
  sliding_window : σ
  max_seq : Nat
  latest_seq : Nat
  window_size : Nat
deriving DecidableEq, Repr

/-- `DetectorConfig` from `src/lib.rs`: if `mask` is `none`, a `Bigint` sized
to `window_size` is used. -/
structure DetectorConfig where
  mask : Option MaskImpl
  max_seq : Nat
  window_size : Nat

/-- `NoWrapReplayDetector::new` from `src/lib.rs`. `none` models the panic of
`Bigint::new(0)` when no mask is supplied and `window_size == 0`. -/
def NoWrapReplayDetector.new (cfg : DetectorConfig) : Option (Detector MaskImpl) :=
  match cfg.mask with
  | some m =>
    some { sliding_window := m, max_seq := cfg.max_seq, latest_seq := 0,
           window_size := cfg.window_size }
  | none =>
    match Bigint.new cfg.window_size with
    | none => none
    | some b =>
      some { sliding_window := .bigintMask b, max_seq := cfg.max_seq, latest_seq := 0,
             window_size := cfg.window_size }

/-- `NoWrapReplayDetector::check` from `src/lib.rs` (pure validation):
rejects `seq > max_seq` as out of range; for `seq <= latest_seq` rejects
`latest_seq >= window_size + seq` as out of range and a set window bit at
offset `latest_seq - seq` as duplicated; otherwise accepts. `none` models a
panic inside the backend's `bit`. -/
def Detector.check {σ : Type} (M : Mask σ) (d : Detector σ) (seq : Nat) :
    Option (Except ReplayError Unit) :=
  if d.max_seq < seq then some (.error (.OutsideWindow seq))
  else if seq ≤ d.latest_seq then
    if d.window_size + seq ≤ d.latest_seq then some (.error (.OutsideWindow seq))
    else
      match M.bit d.sliding_window (d.latest_seq - seq) with
      | none => none
      | some true => some (.error (.Duplicated seq))
      | some false => some (.ok ())
  else some (.ok ())

/-- `Checker::check_and_accept` for `NoWrapReplayDetector` from `src/lib.rs`:
runs `check`; on success the flag `latest` starts as `latest_seq == 0`; when
`seq > latest_seq` the window is shifted by `seq - latest_seq`, `latest_seq`
becomes `seq` and `latest` becomes `true`; finally the bit at
`diff = latest_seq - seq` (computed against the updated `latest_seq`, so
`seq - seq` in the newer-seq branch) is set and `Ok(latest)` is returned.
The Rust `if` is unfolded into the two result shapes here, with `latest`
inlined per branch. Returns the result together with the updated detector
(errors leave the detector unchanged); `none` models a backend panic. -/
def Detector.check_and_accept {σ : Type} (M : Mask σ) (d : Detector σ) (seq : Nat) :
    Option (Except ReplayError Bool × Detector σ) :=
  match Detector.check M d seq with
  | none => none
  | some (.error e) => some (.error e, d)
  | some (.ok _) =>
    if d.latest_seq < seq then
      match M.shl d.sliding_window (seq - d.latest_seq) with
      | none => none
      | some w =>
        match M.set_bit w (seq - seq) with
        | none => none
        | some w' =>
          some (.ok true, { d with sliding_window := w', latest_seq := seq })
    else
      match M.set_bit d.sliding_window (d.latest_seq - seq) with
      | none => none
      | some w' =>
        some (.ok (d.latest_seq == 0), { d with sliding_window := w' })

/-- Feed a list of sequence numbers through `check_and_accept`, collecting the
per-call results; `none` as soon as a call panics. -/
def Detector.run {σ : Type} (M : Mask σ) :
    Detector σ → List Nat → Option (Detector σ × List (Except ReplayError Bool))
  | d, [] => some (d, [])
  | d, s :: rest =>
    match Detector.check_and_accept M d s with
    | none => none
    | some (r, d') =>
      match Detector.run M d' rest with
      | none => none
      | some (dfin, rs) => some (dfin, r :: rs)

/-- Whether a `check_and_accept` result was an acceptance. -/
def isOkResult : Except ReplayError Bool → Bool
  | .ok _ => true
  | .error _ => false

/-! ## Helper lemmas about the bit-level operations -/

/-- The source's bit test `x & (1 << p) != 0` agrees with `Nat.testBit`. -/
theorem and_one_shl_ne_zero (x p : Nat) : ((x &&& (1 <<< p)) != 0) = x.testBit p := by
  have h1 : (1 : Nat) <<< p = 2 ^ p := by rw [Nat.shiftLeft_eq, one_mul]
  rw [h1]
  by_cases h : x.testBit p = true
  · have ht : (x &&& 2 ^ p).testBit p = true := by
      rw [Nat.testBit_and, h, Nat.testBit_two_pow_self]; rfl
    have hne : x &&& 2 ^ p ≠ 0 := by
      intro hz
      rw [hz, Nat.zero_testBit] at ht
      exact Bool.false_ne_true ht
    simp [h, bne_iff_ne, hne]
  · have h' : x.testBit p = false := by simpa using h
    have hz : x &&& 2 ^ p = 0 := by
      apply Nat.eq_of_testBit_eq
      intro i
      rw [Nat.testBit_and, Nat.zero_testBit, Nat.testBit_two_pow]
      by_cases hip : p = i
      · subst hip; simp [h']
      · simp [hip]
    simp [h', hz]

/-- `List.getD` after `List.set` at the written index. -/
theorem getD_set_self {l : List Nat} {i v : Nat} (h : i < l.length) :
    (l.set i v).getD i 0 = v := by
  simp [List.getD_eq_getElem?_getD, List.getElem?_set_self h]

/-- `List.getD` after `List.set` at a different index. -/
theorem getD_set_ne {l : List Nat} {i j v : Nat} (h : i ≠ j) :
    (l.set i v).getD j 0 = l.getD j 0 := by
  simp [List.getD_eq_getElem?_getD, List.getElem?_set_ne h]

/-- After a successful `Bigint::set_bit(0)`, `bit(0)` reads `true`. -/
theorem bigint_set_bit_zero_bit_zero {b b' : Bigint} (h : Bigint.set_bit b 0 = some b') :
    Bigint.bit b' 0 = some true := by
  unfold Bigint.set_bit at h
  rw [if_neg (Nat.not_lt_zero _)] at h
  split at h
  · exact absurd h (by simp)
  · rename_i hlen
    rw [Option.some_inj] at h
    subst h
    unfold Bigint.bit
    rw [if_neg (Nat.not_lt_zero _)]
    simp only [List.length_set]
    rw [if_neg hlen]
    have hidx : b.segments.length - 0 / 64 - 1 < b.segments.length := by omega
    rw [Option.some_inj, getD_set_self hidx, and_one_shl_ne_zero]
    simp [Nat.testBit_or]

/-- Successful `Bigint::set_bit(n)` preserves a set `bit(0)`. -/
theorem bigint_set_bit_keeps_bit_zero {b b' : Bigint} {n : Nat}
    (h : Bigint.set_bit b n = some b') (h0 : Bigint.bit b 0 = some true) :
    Bigint.bit b' 0 = some true := by
  unfold Bigint.set_bit at h
  split at h
  · rw [Option.some_inj] at h; subst h; exact h0
  · split at h
    · exact absurd h (by simp)
    · rename_i hsz hlen
      rw [Option.some_inj] at h
      subst h
      unfold Bigint.bit at h0 ⊢
      rw [if_neg (Nat.not_lt_zero _)] at h0 ⊢
      simp only [List.length_set]
      split at h0
      · exact absurd h0 (by simp)
      · rename_i hlen0
        rw [if_neg hlen0]
        rw [Option.some_inj] at h0 ⊢
        by_cases hij : b.segments.length - n / 64 - 1 = b.segments.length - 0 / 64 - 1
        · rw [hij, getD_set_self (by omega), and_one_shl_ne_zero]
          rw [and_one_shl_ne_zero] at h0
          simp only [Nat.testBit_or]
          rw [h0]
          rfl
        · rw [getD_set_ne hij]
          exact h0

/-- After a successful `Dequeue::set_bit(0)`, `bit(0)` reads `true`. -/
theorem dequeue_set_bit_zero_bit_zero {q q' : Dequeue} (h : Dequeue.set_bit q 0 = some q') :
    Dequeue.bit q' 0 = some true := by
  unfold Dequeue.set_bit at h
  rw [if_neg (Nat.not_lt_zero _)] at h
  split at h
  · exact absurd h (by simp)
  · rename_i hsz
    split at h
    · rename_i hidx
      rw [Option.some_inj] at h
      subst h
      unfold Dequeue.bit
      rw [if_neg (Nat.not_lt_zero _), if_neg hsz]
      simp only [List.length_set]
      rw [if_pos hidx, Option.some_inj, getD_set_self hidx]
      rfl
    · exact absurd h (by simp)

/-- Successful `Dequeue::set_bit(n)` preserves a set `bit(0)`. -/
theorem dequeue_set_bit_keeps_bit_zero {q q' : Dequeue} {n : Nat}
    (h : Dequeue.set_bit q n = some q') (h0 : Dequeue.bit q 0 = some true) :
    Dequeue.bit q' 0 = some true := by
  unfold Dequeue.set_bit at h
  split at h
  · rw [Option.some_inj] at h; subst h; exact h0
  · split at h
    · exact absurd h (by simp)
    · split at h
      · rename_i hsz hne hidx
        rw [Option.some_inj] at h
        subst h
        unfold Dequeue.bit at h0 ⊢
        rw [if_neg (Nat.not_lt_zero _)] at h0 ⊢
        split at h0
        · exact absurd h0 (by simp)
        · rename_i hsz0
          rw [if_neg hsz0]
          simp only [List.length_set]
          split at h0
          · rename_i hidx0
            rw [if_pos hidx0, Option.some_inj]
            rw [Option.some_inj] at h0
            by_cases hij : q.size - n - 1 = q.size - 0 - 1
            · rw [hij, getD_set_self (by omega)]
              rfl
            · rw [getD_set_ne hij]
              exact h0
          · exact absurd h0 (by simp)
      · exact absurd h (by simp)

/-- After a successful `set_bit(0)` on either backend, `bit(0)` reads `true`. -/
theorem mask_set_bit_zero_bit_zero {m m' : MaskImpl} (h : MaskImpl.set_bit m 0 = some m') :
    MaskImpl.bit m' 0 = some true := by
  cases m with
  | bigintMask b =>
    rw [MaskImpl.set_bit, Option.map_eq_some'] at h
    obtain ⟨b', hb, rfl⟩ := h
    exact bigint_set_bit_zero_bit_zero hb
  | dequeueMask q =>
    rw [MaskImpl.set_bit, Option.map_eq_some'] at h
    obtain ⟨q', hq, rfl⟩ := h
    exact dequeue_set_bit_zero_bit_zero hq

/-- Successful `set_bit(n)` on either backend preserves a set `bit(0)`. -/
theorem mask_set_bit_keeps_bit_zero {m m' : MaskImpl} {n : Nat}
    (h : MaskImpl.set_bit m n = some m') (h0 : MaskImpl.bit m 0 = some true) :
    MaskImpl.bit m' 0 = some true := by
  cases m with
  | bigintMask b =>
    rw [MaskImpl.set_bit, Option.map_eq_some'] at h
    obtain ⟨b', hb, rfl⟩ := h
    exact bigint_set_bit_keeps_bit_zero hb h0
  | dequeueMask q =>
    rw [MaskImpl.set_bit, Option.map_eq_some'] at h
    obtain ⟨q', hq, rfl⟩ := h
    exact dequeue_set_bit_keeps_bit_zero hq h0

/-! ## Structural lemmas about `check` and `check_and_accept` -/

/-- An accepted `check` implies the sequence number is below the ceiling. -/
theorem Detector.check_ok_le_max {σ : Type} {M : Mask σ} {d : Detector σ} {seq : Nat}
    {u : Unit} (h : Detector.check M d seq = some (.ok u)) : seq ≤ d.max_seq := by
  unfold Detector.check at h
  split at h
  · exact absurd h (by simp)
  · omega

/-- A rejected `check_and_accept` leaves the detector unchanged. -/
theorem Detector.caa_error {σ : Type} {M : Mask σ} {d d' : Detector σ} {seq : Nat}
    {e : ReplayError} (h : Detector.check_and_accept M d seq = some (.error e, d')) :
    d' = d := by
  simp only [Detector.check_and_accept] at h
  split at h
  · exact absurd h (by simp)
  · simp at h
    exact h.2.symm
  · split at h
    · split at h
      · exact absurd h (by simp)
      · split at h
        · exact absurd h (by simp)
        · simp at h
    · split at h
      · exact absurd h (by simp)
      · simp at h

/-- Full case analysis of an accepting `check_and_accept` call: either the
high-water mark advanced (shift then `set_bit(0)`, result `true`) or the call
filled a gap at offset `latest_seq - seq` (result `latest_seq == 0`). -/
theorem Detector.caa_ok {σ : Type} {M : Mask σ} {d d' : Detector σ} {seq : Nat} {b : Bool}
    (h : Detector.check_and_accept M d seq = some (.ok b, d')) :
    seq ≤ d.max_seq ∧
      ((d.latest_seq < seq ∧ b = true ∧ d'.latest_seq = seq ∧ d'.max_seq = d.max_seq ∧
          d'.window_size = d.window_size ∧
          ∃ w w', M.shl d.sliding_window (seq - d.latest_seq) = some w ∧
            M.set_bit w 0 = some w' ∧ d'.sliding_window = w') ∨
        (seq ≤ d.latest_seq ∧ b = (d.latest_seq == 0) ∧ d'.latest_seq = d.latest_seq ∧
          d'.max_seq = d.max_seq ∧ d'.window_size = d.window_size ∧
          ∃ w', M.set_bit d.sliding_window (d.latest_seq - seq) = some w' ∧
            d'.sliding_window = w')) := by
  simp only [Detector.check_and_accept] at h
  split at h
  · exact absurd h (by simp)
  · exact absurd h (by simp)
  · rename_i u heq
    refine ⟨Detector.check_ok_le_max heq, ?_⟩
    split at h
    · rename_i hlt
      left
      split at h
      · exact absurd h (by simp)
      · rename_i w hshl
        split at h
        · exact absurd h (by simp)
        · rename_i w' hset
          simp only [Option.some_inj, Prod.mk.injEq, Except.ok.injEq] at h
          obtain ⟨hb, hd'⟩ := h
          subst hb
          subst hd'
          refine ⟨hlt, rfl, rfl, rfl, rfl, w, w', hshl, ?_, rfl⟩
          simpa [Nat.sub_self] using hset
    · rename_i hlt
      right
      split at h
      · exact absurd h (by simp)
      · rename_i w' hset
        simp only [Option.some_inj, Prod.mk.injEq, Except.ok.injEq] at h
        obtain ⟨hb, hd'⟩ := h
        subst hb
        subst hd'
        exact ⟨Nat.le_of_not_lt hlt, rfl, rfl, rfl, rfl, w', hset, rfl⟩

/-- Single-step bounds: `check_and_accept` never decreases `latest_seq`, never
changes `max_seq`, and preserves `latest_seq ≤ max_seq`. -/
theorem Detector.caa_step_bounds {σ : Type} {M : Mask σ} {d d' : Detector σ} {seq : Nat}
    {r : Except ReplayError Bool} (h : Detector.check_and_accept M d seq = some (r, d')) :
    d.latest_seq ≤ d'.latest_seq ∧ d'.max_seq = d.max_seq ∧
      (d.latest_seq ≤ d.max_seq → d'.latest_seq ≤ d'.max_seq) := by
  cases r with
  | error e =>
    obtain rfl : d' = d := Detector.caa_error h
    exact ⟨Nat.le_refl _, rfl, id⟩
  | ok b =>
    obtain ⟨hmax, hcase | hcase⟩ := Detector.caa_ok h
    · obtain ⟨hlt, -, hl, hm, -, -⟩ := hcase
      rw [hl, hm]
      exact ⟨Nat.le_of_lt hlt, rfl, fun _ => hmax⟩
    · obtain ⟨-, -, hl, hm, -, -⟩ := hcase
      rw [hl, hm]
      exact ⟨Nat.le_refl _, rfl, id⟩

/-- Running any list of calls preserves `latest_seq ≤ max_seq`. -/
theorem Detector.run_latest_le_max {σ : Type} {M : Mask σ} :
    ∀ (l : List Nat) (d dfin : Detector σ) (rs : List (Except ReplayError Bool)),
      Detector.run M d l = some (dfin, rs) → d.latest_seq ≤ d.max_seq →
      dfin.latest_seq ≤ dfin.max_seq := by
  intro l
  induction l with
  | nil =>
    intro d dfin rs h hle
    simp only [Detector.run, Option.some_inj, Prod.mk.injEq] at h
    obtain ⟨h1, -⟩ := h
    rw [← h1]
    exact hle
  | cons s rest ih =>
    intro d dfin rs h hle
    simp only [Detector.run] at h
    split at h
    · exact absurd h (by simp)
    · rename_i r d' hp
      split at h
      · exact absurd h (by simp)
      · rename_i dfin2 rs2 hp2
        simp only [Option.some_inj, Prod.mk.injEq] at h
        obtain ⟨h1, -⟩ := h
        rw [← h1]
        exact ih d' dfin2 rs2 hp2 ((Detector.caa_step_bounds hp).2.2 hle)

/-- A freshly constructed detector has `latest_seq = 0` and the configured
ceiling. -/
theorem NoWrapReplayDetector.new_latest {cfg : DetectorConfig} {d0 : Detector MaskImpl}
    (h : NoWrapReplayDetector.new cfg = some d0) :
    d0.latest_seq = 0 ∧ d0.max_seq = cfg.max_seq := by
  unfold NoWrapReplayDetector.new at h
  split at h
  · rw [Option.some_inj] at h
    rw [← h]
    exact ⟨rfl, rfl⟩
  · split at h
    · exact absurd h (by simp)
    · rw [Option.some_inj] at h
      rw [← h]
      exact ⟨rfl, rfl⟩

/-- An accepting call establishes a set `bit(0)` provided the detector was
fresh (`latest_seq = 0`) or already had `bit(0)` set. -/
theorem Detector.caa_ok_bit_zero {d d' : Detector MaskImpl} {seq : Nat} {b : Bool}
    (h : Detector.check_and_accept maskOps d seq = some (.ok b, d'))
    (hd : d.latest_seq = 0 ∨ MaskImpl.bit d.sliding_window 0 = some true) :
    MaskImpl.bit d'.sliding_window 0 = some true := by
  obtain ⟨-, hcase | hcase⟩ := Detector.caa_ok h
  · obtain ⟨-, -, -, -, -, w, w', -, hset, hsw⟩ := hcase
    rw [hsw]
    exact mask_set_bit_zero_bit_zero hset
  · obtain ⟨hle, -, -, -, -, w', hset, hsw⟩ := hcase
    rw [hsw]
    rcases hd with h0 | hbit
    · have hz : d.latest_seq - seq = 0 := by omega
      rw [hz] at hset
      exact mask_set_bit_zero_bit_zero hset
    · exact mask_set_bit_keeps_bit_zero hset hbit

/-- Along any run, once some call has accepted, `bit(0)` stays set; with no
acceptance the detector is untouched. -/
theorem Detector.run_bit_zero :
    ∀ (l : List Nat) (d dfin : Detector MaskImpl) (rs : List (Except ReplayError Bool)),
      Detector.run maskOps d l = some (dfin, rs) →
      (d.latest_seq = 0 ∨ MaskImpl.bit d.sliding_window 0 = some true) →
      (rs.any isOkResult = true → MaskImpl.bit dfin.sliding_window 0 = some true) ∧
        (rs.any isOkResult = false → dfin = d) := by
  intro l
  induction l with
  | nil =>
    intro d dfin rs h hd
    simp only [Detector.run, Option.some_inj, Prod.mk.injEq] at h
    obtain ⟨h1, h2⟩ := h
    rw [← h1, ← h2]
    exact ⟨fun htrue => absurd htrue (by simp), fun _ => rfl⟩
  | cons s rest ih =>
    intro d dfin rs h hd
    simp only [Detector.run] at h
    split at h
    · exact absurd h (by simp)
    · rename_i r d' hp
      split at h
      · exact absurd h (by simp)
      · rename_i dfin2 rs2 hp2
        simp only [Option.some_inj, Prod.mk.injEq] at h
        obtain ⟨h1, h2⟩ := h
        rw [← h1, ← h2]
        cases r with
        | error e =>
          obtain rfl : d' = d := Detector.caa_error hp
          obtain ⟨ih1, ih2⟩ := ih d' dfin2 rs2 hp2 hd
          constructor
          · intro hany
            exact ih1 (by simpa [isOkResult] using hany)
          · intro hnone
            exact ih2 (by simpa [isOkResult] using hnone)
        | ok b =>
          have hinv : MaskImpl.bit d'.sliding_window 0 = some true :=
            Detector.caa_ok_bit_zero hp hd
          obtain ⟨ih1, ih2⟩ := ih d' dfin2 rs2 hp2 (Or.inr hinv)
          constructor
          · intro _
            cases hany2 : rs2.any isOkResult with
            | true => exact ih1 hany2
            | false => rw [ih2 hany2]; exact hinv
          · intro hnone
            exact absurd hnone (by simp [isOkResult])

/-- With `bit(0)` set, resubmitting the current high-water mark is never
accepted by `check`. -/
theorem Detector.check_latest_not_ok {σ : Type} (M : Mask σ) (d : Detector σ)
    (hbit : M.bit d.sliding_window 0 = some true) :
    Detector.check M d d.latest_seq ≠ some (.ok ()) := by
  unfold Detector.check
  intro h
  split at h
  · simp at h
  · rw [if_pos (Nat.le_refl _)] at h
    split at h
    · simp at h
    · rw [Nat.sub_self, hbit] at h
      simp at h

/-! ## Claim theorems -/

/-- C1: `check(seq)` returns `OutOfRange(seq)` when `seq > max_seq`;
otherwise, for `seq <= latest_seq`, it returns `OutOfRange(seq)` when
`latest_seq - seq >= window_size`, returns `Duplicated(seq)` when the
bit-window's flag at offset `latest_seq - seq` is set, `Ok` when that flag is
clear; and every `seq` with `latest_seq < seq <= max_seq` is accepted. -/
theorem check_classifies {σ : Type} (M : Mask σ) (d : Detector σ) (seq : Nat) :
    (d.max_seq < seq → Detector.check M d seq = some (.error (.OutsideWindow seq))) ∧
    (seq ≤ d.max_seq → seq ≤ d.latest_seq → d.window_size ≤ d.latest_seq - seq →
      Detector.check M d seq = some (.error (.OutsideWindow seq))) ∧
    (∀ bv : Bool, seq ≤ d.max_seq → seq ≤ d.latest_seq → d.latest_seq - seq < d.window_size →
      M.bit d.sliding_window (d.latest_seq - seq) = some bv →
      Detector.check M d seq = some (if bv then .error (.Duplicated seq) else .ok ())) ∧
    (seq ≤ d.max_seq → d.latest_seq < seq → Detector.check M d seq = some (.ok ())) := by
  unfold Detector.check
  refine ⟨?_, ?_, ?_, ?_⟩
  · intro h
    rw [if_pos h]
  · intro h1 h2 h3
    rw [if_neg (by omega), if_pos h2, if_pos (by omega)]
  · intro bv h1 h2 h3 hbit
    rw [if_neg (by omega), if_pos h2, if_neg (by omega), hbit]
    cases bv <;> rfl
  · intro h1 h2
    rw [if_neg (by omega), if_neg (by omega)]

/-- Witness for C1 at concrete states: ceiling rejection, behind-window
rejection, duplicate rejection, and in-window acceptance. -/
theorem check_classifies_witness :
    Detector.check maskOps ⟨.bigintMask ⟨32, [5], 4294967295⟩, 128, 12, 32⟩ 200 =
        some (.error (.OutsideWindow 200)) ∧
    Detector.check maskOps ⟨.bigintMask ⟨32, [5], 4294967295⟩, 1000, 100, 32⟩ 50 =
        some (.error (.OutsideWindow 50)) ∧
    Detector.check maskOps ⟨.bigintMask ⟨32, [5], 4294967295⟩, 128, 12, 32⟩ 10 =
        some (.error (.Duplicated 10)) ∧
    Detector.check maskOps ⟨.bigintMask ⟨32, [5], 4294967295⟩, 128, 12, 32⟩ 50 =
        some (.ok ()) :=
  ⟨(check_classifies maskOps ⟨.bigintMask ⟨32, [5], 4294967295⟩, 128, 12, 32⟩ 200).1
      (by decide),
   (check_classifies maskOps ⟨.bigintMask ⟨32, [5], 4294967295⟩, 1000, 100, 32⟩ 50).2.1
      (by decide) (by decide) (by decide),
   (check_classifies maskOps ⟨.bigintMask ⟨32, [5], 4294967295⟩, 128, 12, 32⟩ 10).2.2.1
      true (by decide) (by decide) (by decide) (by decide),
   (check_classifies maskOps ⟨.bigintMask ⟨32, [5], 4294967295⟩, 128, 12, 32⟩ 50).2.2.2
      (by decide) (by decide)⟩

/-- C2 (code bug): after `shl(n)` a flag previously set at offset `k` should
read as set at `k + n` while `k + n` is within the declared width, but it does
not. `Bigint` width 40: the flag set at offset 30 vanishes after `shl(1)`
because `msb_mask = 2 ^ (64 - 40) - 1` wrongly clears word bits `>= 24`, well
inside the declared width. `Dequeue` width 2: `shl` only appends cells at the
back while `bit` reads a fixed index from the front, so the flag set at
offset 0 is not observable at offset 1 after `shl(1)`. -/
theorem shl_mask_drops_in_window_flag :
    (do
      let b ← Bigint.new 40
      let b ← b.set_bit 30
      let b ← b.shl 1
      b.bit 31) = some false ∧
    (do
      let q ← Dequeue.set_bit (Dequeue.new 2) 0
      let q ← q.shl 1
      q.bit 1) = some false := by
  exact ⟨by decide, by decide⟩

/-- C3 (code bug): the two backends with the same declared width are not
observably equivalent. Width 2, `set_bit(0)` then `shl(1)`: `Bigint` reports
the flag at offset 1 (as specified), `Dequeue` does not, because its `shl`
appends cells at the back while `bit`/`set_bit` index from a fixed front
position, so shifting never moves any observable flag. -/
theorem backends_observably_disagree :
    (do
      let b ← Bigint.new 2
      let b ← b.set_bit 0
      let b ← b.shl 1
      b.bit 1) = some true ∧
    (do
      let q ← Dequeue.set_bit (Dequeue.new 2) 0
      let q ← q.shl 1
      q.bit 1) = some false := by
  exact ⟨by decide, by decide⟩

/-- C4 (code bug): mask operations can panic. `Dequeue` width 1: `bit(1)`
(offset = declared width, in bounds by the crate's own boundary convention,
exercised by the `Bigint` tests) evaluates `vec[size - n - 1]` with
`size - n - 1` underflowing. `Bigint` width 64: `bit(64)` computes segment
index `len - n/64 - 1 = 1 - 1 - 1`, also an underflow. Both are modelled as
`none`. -/
theorem mask_ops_can_panic :
    Dequeue.bit (Dequeue.new 1) 1 = none ∧
    (do
      let b ← Bigint.new 64
      b.bit 64) = none := by
  exact ⟨by decide, by decide⟩

/-- C5 (code bug): an accepted sequence number that stays inside the window
is accepted again. Default `Bigint` backend, `window_size = 40`,
`max_seq = 1000`: accept 30, accept 60 (offset of 30 becomes 30 < 40, still
inside the window), then resubmit 30 — the third call returns `Ok(false)`
instead of `Err(Duplicated(30))`, because the wrong `msb_mask` cleared the
flag. With the `Dequeue` backend even the crate's own `duplicated_value`
scenario (accept 10, accept 12, resubmit 10 inside a 32-wide window) returns
`Ok(false)` instead of `Err(Duplicated(10))`. -/
theorem replay_accepted_after_slide :
    (do
      let d ← NoWrapReplayDetector.new ⟨none, 1000, 40⟩
      let (_, rs) ← Detector.run maskOps d [30, 60, 30]
      pure rs) = some [.ok true, .ok true, .ok false] ∧
    (do
      let d ← NoWrapReplayDetector.new ⟨some (.dequeueMask (Dequeue.new 32)), 128, 32⟩
      let (_, rs) ← Detector.run maskOps d [10, 12, 10]
      pure rs) = some [.ok true, .ok true, .ok false] := by
  exact ⟨by decide, by decide⟩

/-- C6 counterexample: on a fresh detector (`latest_seq = 0`), accepting
`seq = 0` returns `Ok(true)` although `latest_seq` is unchanged (0 before and
after), so the boolean is not "true iff the call advanced the high-water
mark". -/
theorem first_call_newest_without_advance :
    (do
      let d ← NoWrapReplayDetector.new ⟨none, 128, 32⟩
      let (r, d') ← Detector.check_and_accept maskOps d 0
      pure (r, d'.latest_seq)) = some (.ok true, 0) := by
  decide

/-- C6 as amended: when `check_and_accept` returns `Ok(b)`, `b` is true iff
the call advanced the high-water mark **or** `latest_seq` was 0 at entry
(the first-acceptance conflation); the call advances `latest_seq` iff
`seq > latest_seq` at entry. -/
theorem caa_newest_flag {σ : Type} {M : Mask σ} {d d' : Detector σ} {seq : Nat} {b : Bool}
    (h : Detector.check_and_accept M d seq = some (.ok b, d')) :
    b = (d.latest_seq == 0 || decide (d.latest_seq < seq)) ∧
      (d.latest_seq < d'.latest_seq ↔ d.latest_seq < seq) := by
  obtain ⟨-, hcase | hcase⟩ := Detector.caa_ok h
  · obtain ⟨hlt, hb, hl, -, -, -⟩ := hcase
    refine ⟨?_, ?_⟩
    · rw [hb, decide_eq_true hlt, Bool.or_true]
    · rw [hl]
  · obtain ⟨hle, hb, hl, -, -, -⟩ := hcase
    have hnlt : ¬d.latest_seq < seq := Nat.not_lt.mpr hle
    refine ⟨?_, ?_⟩
    · rw [hb, decide_eq_false hnlt, Bool.or_false]
    · rw [hl]
      exact iff_of_false (Nat.lt_irrefl _) hnlt

/-- Witness for the amended C6 on a concrete gap-filling call (accepting 11
behind high-water mark 12). -/
theorem caa_newest_flag_witness :
    (false = ((12 : Nat) == 0 || decide ((12 : Nat) < 11))) ∧
      ((12 : Nat) < 12 ↔ (12 : Nat) < 11) :=
  @caa_newest_flag MaskImpl maskOps ⟨.bigintMask ⟨32, [5], 4294967295⟩, 128, 12, 32⟩
    ⟨.bigintMask ⟨32, [7], 4294967295⟩, 128, 12, 32⟩ 11 false (by decide)

/-- C7: from any configuration, `latest_seq` starts at 0, never exceeds
`max_seq` along any run of `check_and_accept` calls, and no single call
(accepting or rejecting) ever decreases it. -/
theorem latest_seq_invariant :
    (∀ (cfg : DetectorConfig) (d0 dfin : Detector MaskImpl) (l : List Nat)
        (rs : List (Except ReplayError Bool)),
      NoWrapReplayDetector.new cfg = some d0 →
      Detector.run maskOps d0 l = some (dfin, rs) →
      dfin.latest_seq ≤ dfin.max_seq) ∧
    (∀ {σ : Type} (M : Mask σ) (d : Detector σ) (seq : Nat)
        (r : Except ReplayError Bool) (d' : Detector σ),
      Detector.check_and_accept M d seq = some (r, d') →
      d.latest_seq ≤ d'.latest_seq) := by
  constructor
  · intro cfg d0 dfin l rs hnew hrun
    obtain ⟨h0, -⟩ := NoWrapReplayDetector.new_latest hnew
    exact Detector.run_latest_le_max l d0 dfin rs hrun (by omega)
  · intro σ M d seq r d' h
    exact (Detector.caa_step_bounds h).1

/-- Witness for C7: a concrete three-call run ending at
`latest_seq = 12 ≤ 128 = max_seq`, and a concrete accepting step raising
`latest_seq` from 0 to 10. -/
theorem latest_seq_invariant_witness : (12 : Nat) ≤ 128 ∧ (0 : Nat) ≤ 10 :=
  ⟨latest_seq_invariant.1 ⟨none, 128, 32⟩ ⟨.bigintMask ⟨32, [0], 4294967295⟩, 128, 0, 32⟩
      ⟨.bigintMask ⟨32, [5], 4294967295⟩, 128, 12, 32⟩ [10, 12, 10]
      [.ok true, .ok true, .error (.Duplicated 10)] (by decide) (by decide),
   latest_seq_invariant.2 maskOps ⟨.bigintMask ⟨32, [0], 4294967295⟩, 128, 0, 32⟩ 10
      (.ok true) ⟨.bigintMask ⟨32, [1], 4294967295⟩, 128, 10, 32⟩ (by decide)⟩

/-- C8 counterexample: constructing the cell-sequence backend with declared
width 0 is not fatal — `Dequeue::new(0)` (which performs no width check)
returns the empty structure instead of panicking, refuting "for either
backend". -/
theorem dequeue_new_zero_succeeds : Dequeue.new 0 = ⟨[], 0⟩ := by
  decide

/-- C8 as amended: only the packed-word backend treats width 0 as fatal —
`Bigint::new(sz)` succeeds exactly when `sz > 0` — while `Dequeue::new`
accepts every width, 0 included, returning `size` zero cells. -/
theorem width_zero_construction :
    (∀ sz : Nat, (Bigint.new sz).isSome ↔ 0 < sz) ∧
      (∀ sz : Nat, Dequeue.new sz = ⟨List.replicate sz 0, sz⟩) := by
  constructor
  · intro sz
    unfold Bigint.new
    split
    · rename_i h
      subst h
      simp
    · rename_i h
      simp [Nat.pos_of_ne_zero h]
  · intro sz
    rfl

/-- C9 counterexample: the cell count is not monotone — `Dequeue::new(1)` has
one cell, but `shl(2)` (shift beyond the declared size) clears the vector,
leaving zero cells. -/
theorem dequeue_shl_clear_removes_cells :
    (Dequeue.new 1).vec.length = 1 ∧
      (Dequeue.shl (Dequeue.new 1) 2).map (fun q => q.vec.length) = some 0 := by
  exact ⟨by decide, by decide⟩

/-- C9 as amended: the cell sequence starts with exactly `size` zero cells;
`set_bit` never changes the cell count and `shl(n)` with `n ≤ size` only
appends `n` fresh zero cells, so the count is non-decreasing **except** for
`shl(n)` with `n > size`, which removes all cells. -/
theorem dequeue_cell_count :
    (∀ size : Nat, (Dequeue.new size).vec.length = size) ∧
    (∀ (q q' : Dequeue) (n : Nat), Dequeue.set_bit q n = some q' →
      q'.vec.length = q.vec.length) ∧
    (∀ (q : Dequeue) (n : Nat), n ≤ q.size →
      Dequeue.shl q n = some { q with vec := q.vec ++ List.replicate n 0 }) ∧
    (∀ (q : Dequeue) (n : Nat), q.size < n →
      Dequeue.shl q n = some { q with vec := [] }) := by
  refine ⟨?_, ?_, ?_, ?_⟩
  · intro size
    simp [Dequeue.new]
  · intro q q' n h
    unfold Dequeue.set_bit at h
    split at h
    · rw [Option.some_inj] at h
      rw [← h]
    · split at h
      · exact absurd h (by simp)
      · split at h
        · rw [Option.some_inj] at h
          rw [← h]
          simp
        · exact absurd h (by simp)
  · intro q n h
    unfold Dequeue.shl
    rw [if_neg (by omega)]
  · intro q n h
    unfold Dequeue.shl
    rw [if_pos h]

/-- Witness for the amended C9 on concrete dequeues: an in-range shift
appends, an out-of-range shift clears, and `set_bit` keeps the count. -/
theorem dequeue_cell_count_witness :
    (Dequeue.new 2).vec.length = 2 ∧
    Dequeue.shl (Dequeue.new 2) 1 = some ⟨[0, 0, 0], 2⟩ ∧
    Dequeue.shl (Dequeue.new 2) 3 = some ⟨[], 2⟩ ∧
    (⟨[1, 0], 2⟩ : Dequeue).vec.length = (Dequeue.new 2).vec.length :=
  ⟨dequeue_cell_count.1 2,
   dequeue_cell_count.2.2.1 (Dequeue.new 2) 1 (by decide),
   dequeue_cell_count.2.2.2 (Dequeue.new 2) 3 (by decide),
   dequeue_cell_count.2.1 (Dequeue.new 2) ⟨[1, 0], 2⟩ 1 (by decide)⟩

/-- C10: in every state reached from a fresh detector by a run containing at
least one accepting call, the window flag at offset 0 is set, and therefore
resubmitting the current `latest_seq` is never accepted by `check`. -/
theorem accepted_seq_marks_offset_zero :
    ∀ (cfg : DetectorConfig) (l : List Nat) (d0 dfin : Detector MaskImpl)
      (rs : List (Except ReplayError Bool)),
      NoWrapReplayDetector.new cfg = some d0 →
      Detector.run maskOps d0 l = some (dfin, rs) →
      rs.any isOkResult = true →
      MaskImpl.bit dfin.sliding_window 0 = some true ∧
        Detector.check maskOps dfin dfin.latest_seq ≠ some (.ok ()) := by
  intro cfg l d0 dfin rs hnew hrun hany
  have h0 : d0.latest_seq = 0 := (NoWrapReplayDetector.new_latest hnew).1
  have hbit := (Detector.run_bit_zero l d0 dfin rs hrun (Or.inl h0)).1 hany
  exact ⟨hbit, Detector.check_latest_not_ok maskOps dfin hbit⟩

/-- Witness for C10 on a concrete two-call run (accept 10 then 12 with the
default backend): offset 0 is set and resubmitting 12 is not accepted. -/
theorem accepted_seq_marks_offset_zero_witness :
    MaskImpl.bit (MaskImpl.bigintMask ⟨32, [5], 4294967295⟩) 0 = some true ∧
      Detector.check maskOps ⟨.bigintMask ⟨32, [5], 4294967295⟩, 128, 12, 32⟩ 12 ≠
        some (.ok ()) :=
  accepted_seq_marks_offset_zero ⟨none, 128, 32⟩ [10, 12]
    ⟨.bigintMask ⟨32, [0], 4294967295⟩, 128, 0, 32⟩
    ⟨.bigintMask ⟨32, [5], 4294967295⟩, 128, 12, 32⟩ [.ok true, .ok true]
    (by decide) (by decide) (by decide)
